import Mathlib

/-!
Shallow embedding of `src/airflow-docker/dags/order_analytics_dag.py`:
an ETL pipeline that ensures two reporting tables exist, aggregates the
source relation `"order"` by product and by calendar date, and upserts
the aggregates into `product_performance` and `daily_trends` via
`psycopg2.extras.execute_values` with `INSERT ... ON CONFLICT` statements.

The embedding models:
  * the source rows (`Order`), with SQL `NUMERIC` as `ℚ`, `TIMESTAMP` as a
    calendar-day index plus a time-of-day, and `DATE(created_at)` as the
    day index;
  * the two aggregation queries as pure functions over the source row list;
  * the batched `INSERT ... ON CONFLICT` statements at the SQL level:
    each parameter row is a list of SQL values (as built by the Python
    `data.append(...)` lines), the statement's target-column list is the
    one written in the SQL string, and execution rejects a parameter row
    whose arity differs from the target-column count (PostgreSQL:
    "INSERT has more target columns than expressions"), rejects a row
    whose key was already affected by the same statement (PostgreSQL:
    "ON CONFLICT DO UPDATE command cannot affect row a second time"),
    and otherwise inserts or conflict-updates one table row per value row;
  * each task as a function from database state to a log/event trace, a
    new database state and an optional SQL error; a failing statement
    leaves its table unchanged (the `with` connection block never commits);
  * `extract_transform_load` as the sequential composition, where an error
    in a step aborts the remaining steps but keeps earlier committed state.
-/

namespace OrderAnalytics

/-- SQL `NUMERIC` values, modelled as exact rationals. -/
abbrev Numeric := ℚ

/-- A SQL `TIMESTAMP`: a calendar-day index together with a time of day.
`DATE(ts)` truncates it to the day index. -/
structure Timestamp where
  day : ℤ
  timeOfDay : ℕ
deriving DecidableEq, Repr

/-- `DATE(created_at)`: truncate a timestamp to its calendar date. -/
def dateOf (ts : Timestamp) : ℤ := ts.day

/-- A row of the read-only source relation `"order"`. -/
structure Order where
  product : String
  amount : Numeric
  created_at : Timestamp
deriving DecidableEq, Repr

/-- A row of the destination table `product_performance`
(primary key `product`). -/
structure PPRow where
  product : String
  order_count : ℕ
  total_sales : Numeric
  avg_sales : Numeric
  report_date : ℤ
deriving DecidableEq, Repr

/-- A row of the destination table `daily_trends` (primary key `order_date`);
also the shape of one result row of the daily-trends aggregation query. -/
structure DTRow where
  order_date : ℤ
  daily_orders : ℕ
  daily_sales : Numeric
deriving DecidableEq, Repr

/-- One result row of the product-performance aggregation query. -/
structure PPAgg where
  product : String
  order_count : ℕ
  total_sales : Numeric
  avg_sales : Numeric
deriving DecidableEq, Repr

/-- The destination database state: existence flags and rows of the two
destination tables. The source relation is read-only and passed separately. -/
structure DB where
  ppExists : Bool
  dtExists : Bool
  product_performance : List PPRow
  daily_trends : List DTRow
deriving DecidableEq, Repr

/-- `create_tables`: `CREATE TABLE IF NOT EXISTS` for both destination
tables — a missing table is created empty, an existing one is untouched. -/
def create_tables (db : DB) : DB :=
  { ppExists := true
    dtExists := true
    product_performance := if db.ppExists then db.product_performance else []
    daily_trends := if db.dtExists then db.daily_trends else [] }

/-- The list of distinct products of the source, in the group order the
model fixes for `GROUP BY product` (the SQL leaves it unspecified). -/
def productGroups (orders : List Order) : List String :=
  (orders.map Order.product).dedup

/-- The aggregation query of `upsert_product_performance`:
`SELECT product, COUNT(*), SUM(amount), AVG(amount) FROM "order"
GROUP BY product`. No date filtering: every source row is in its group. -/
def productPerformanceQuery (orders : List Order) : List PPAgg :=
  (productGroups orders).map (fun p =>
    let grp := orders.filter (fun o => o.product = p)
    { product := p
      order_count := grp.length
      total_sales := (grp.map Order.amount).sum
      avg_sales := (grp.map Order.amount).sum / (grp.length : ℚ) })

/-- The list of distinct calendar dates of the source rows. -/
def dateGroups (orders : List Order) : List ℤ :=
  (orders.map (fun o => dateOf o.created_at)).dedup

/-- The aggregation query of `upsert_daily_trends`:
`SELECT DATE(created_at), COUNT(*), SUM(amount) FROM "order"
GROUP BY order_date ORDER BY order_date`. Groups come out in ascending
date order; no date-range filter. -/
def dailyTrendsQuery (orders : List Order) : List DTRow :=
  ((dateGroups orders).insertionSort (· ≤ ·)).map (fun d =>
    let grp := orders.filter (fun o => dateOf o.created_at = d)
    { order_date := d
      daily_orders := grp.length
      daily_sales := (grp.map Order.amount).sum })

/-- A SQL parameter value, as interpolated by `execute_values`. -/
inductive SqlValue
  | text (s : String)
  | int (n : ℕ)
  | num (q : Numeric)
  | date (d : ℤ)
deriving DecidableEq, Repr

/-- The SQL errors the modelled statements can raise. -/
inductive SqlError
  /-- "INSERT has more target columns than expressions" (or fewer):
  a `VALUES` row's arity differs from the statement's target-column list. -/
  | insertArityMismatch (targets exprs : ℕ)
  /-- A parameter value does not fit its target column's type. -/
  | typeMismatch
  /-- "ON CONFLICT DO UPDATE command cannot affect row a second time":
  two rows of one statement map to the same destination row. -/
  | onConflictTwice
deriving DecidableEq, Repr

/-- The target-column list of the `INSERT` issued by
`upsert_product_performance`, as written in its SQL string. -/
def ppInsertColumns : List String :=
  ["product", "order_count", "total_sales", "avg_sales", "report_date"]

/-- The target-column list of the `INSERT` issued by `upsert_daily_trends`,
as written in its SQL string. -/
def dtInsertColumns : List String :=
  ["order_date", "daily_orders", "daily_sales"]

/-- The parameter rows built by `upsert_product_performance`:
`data.append((product, order_count, total_sales, avg_sales))` —
four values per row. -/
def ppData (results : List PPAgg) : List (List SqlValue) :=
  results.map (fun g =>
    [.text g.product, .int g.order_count, .num g.total_sales, .num g.avg_sales])

/-- The parameter rows built by `upsert_daily_trends`:
`data.append((order_date, daily_orders, daily_sales))` —
three values per row. -/
def dtData (results : List DTRow) : List (List SqlValue) :=
  results.map (fun g =>
    [.date g.order_date, .int g.daily_orders, .num g.daily_sales])

/-- Decode one full-arity `VALUES` row of the product-performance `INSERT`
into a `product_performance` row. -/
def decodePPRow (vs : List SqlValue) : Option PPRow :=
  match vs with
  | [.text p, .int c, .num t, .num a, .date d] => some ⟨p, c, t, a, d⟩
  | _ => none

/-- Decode one full-arity `VALUES` row of the daily-trends `INSERT` into a
`daily_trends` row. -/
def decodeDTRow (vs : List SqlValue) : Option DTRow :=
  match vs with
  | [.date d, .int n, .num s] => some ⟨d, n, s⟩
  | _ => none

/-- The key column of the `product_performance` table. -/
def ppKeys (tbl : List PPRow) : List String := tbl.map PPRow.product

/-- The key column of the `daily_trends` table. -/
def dtKeys (tbl : List DTRow) : List ℤ := tbl.map DTRow.order_date

/-- Apply one decoded row of the product-performance `INSERT`:
insert the row, or `ON CONFLICT (product) DO UPDATE SET order_count,
total_sales, avg_sales` from the excluded row and
`report_date = CURRENT_DATE` (the run date, not the batch value). -/
def ppApplyRow (today : ℤ) (tbl : List PPRow) (r : PPRow) : List PPRow :=
  if r.product ∈ ppKeys tbl then
    tbl.map (fun x =>
      if x.product = r.product then
        { x with
          order_count := r.order_count
          total_sales := r.total_sales
          avg_sales := r.avg_sales
          report_date := today }
      else x)
  else tbl ++ [r]

/-- Apply one decoded row of the daily-trends `INSERT`: insert the row, or
`ON CONFLICT (order_date) DO UPDATE SET daily_orders, daily_sales` from the
excluded row. -/
def dtApplyRow (tbl : List DTRow) (r : DTRow) : List DTRow :=
  if r.order_date ∈ dtKeys tbl then
    tbl.map (fun x =>
      if x.order_date = r.order_date then
        { x with daily_orders := r.daily_orders, daily_sales := r.daily_sales }
      else x)
  else tbl ++ [r]

/-- Execute the batched product-performance `INSERT ... ON CONFLICT` row by
row: reject a parameter row whose arity differs from the 5-column target
list, a row that does not decode, or a row whose key a previous row of the
same statement already affected; otherwise insert / conflict-update.
`touched` accumulates the keys affected by this statement. -/
def runPPInsert (today : ℤ) (tbl : List PPRow) (touched : List String) :
    List (List SqlValue) → Except SqlError (List PPRow)
  | [] => .ok tbl
  | vs :: rest =>
    if vs.length = ppInsertColumns.length then
      match decodePPRow vs with
      | some r =>
        if r.product ∈ touched then .error .onConflictTwice
        else runPPInsert today (ppApplyRow today tbl r) (r.product :: touched) rest
      | none => .error .typeMismatch
    else .error (.insertArityMismatch ppInsertColumns.length vs.length)

/-- Execute the batched daily-trends `INSERT ... ON CONFLICT` row by row
(same statement semantics as `runPPInsert`, with the 3-column target list). -/
def runDTInsert (tbl : List DTRow) (touched : List ℤ) :
    List (List SqlValue) → Except SqlError (List DTRow)
  | [] => .ok tbl
  | vs :: rest =>
    if vs.length = dtInsertColumns.length then
      match decodeDTRow vs with
      | some r =>
        if r.order_date ∈ touched then .error .onConflictTwice
        else runDTInsert (dtApplyRow tbl r) (r.order_date :: touched) rest
      | none => .error .typeMismatch
    else .error (.insertArityMismatch dtInsertColumns.length vs.length)

/-- One observable event of a run: a log line (modelled structurally), a DDL
statement against a destination table, a read of the source relation, or an
attempted write statement against a destination table. -/
inductive Event
  | logStart
  | ddlProductPerformance
  | ddlDailyTrends
  | readSource
  | logProductHeader
  | logProduct (product : String) (order_count : ℕ) (total_sales avg_sales : Numeric)
  | logDailyHeader
  | logDaily (order_date : ℤ) (daily_orders : ℕ) (daily_sales : Numeric)
  | writeProductPerformance
  | writeDailyTrends
  | logDone
deriving DecidableEq, Repr

/-- The log lines of `upsert_product_performance`: the report header, then
one line per aggregated group. -/
def ppLogEvents (results : List PPAgg) : List Event :=
  Event.logProductHeader ::
    results.map (fun g => Event.logProduct g.product g.order_count g.total_sales g.avg_sales)

/-- The log lines of `upsert_daily_trends`: the report header, then one line
per date group, in the query's (ascending-date) order. -/
def dtLogEvents (results : List DTRow) : List Event :=
  Event.logDailyHeader ::
    results.map (fun g => Event.logDaily g.order_date g.daily_orders g.daily_sales)

/-- `upsert_product_performance`: fetch the aggregation results, log them,
build `data`, and if `data` is nonempty execute the batched
`INSERT ... ON CONFLICT` in its own connection and commit. A statement
error rolls the connection back, leaving the table unchanged. Returns the
event trace, the database state after the task, and the error if any. -/
def upsert_product_performance (orders : List Order) (today : ℤ) (db : DB) :
    List Event × DB × Option SqlError :=
  let results := productPerformanceQuery orders
  let tr := Event.readSource :: ppLogEvents results
  let data := ppData results
  if data.isEmpty then (tr, db, none)
  else
    match runPPInsert today db.product_performance [] data with
    | .error e => (tr ++ [Event.writeProductPerformance], db, some e)
    | .ok tbl =>
      (tr ++ [Event.writeProductPerformance],
        { db with product_performance := tbl }, none)

/-- `upsert_daily_trends`: fetch the aggregation results, log them, build
`data`, and if `data` is nonempty execute the batched
`INSERT ... ON CONFLICT` in its own connection and commit. A statement
error rolls the connection back, leaving the table unchanged. -/
def upsert_daily_trends (orders : List Order) (db : DB) :
    List Event × DB × Option SqlError :=
  let results := dailyTrendsQuery orders
  let tr := Event.readSource :: dtLogEvents results
  let data := dtData results
  if data.isEmpty then (tr, db, none)
  else
    match runDTInsert db.daily_trends [] data with
    | .error e => (tr ++ [Event.writeDailyTrends], db, some e)
    | .ok tbl =>
      (tr ++ [Event.writeDailyTrends], { db with daily_trends := tbl }, none)

/-- `extract_transform_load`: log the start marker, run `create_tables`,
`upsert_product_performance`, `upsert_daily_trends` in that fixed order, and
log the completion marker; an exception in a step aborts the remaining
steps, keeping the state the completed steps already committed. -/
def extract_transform_load (orders : List Order) (today : ℤ) (db : DB) :
    List Event × DB × Option SqlError :=
  let pre := [Event.logStart, Event.ddlProductPerformance, Event.ddlDailyTrends]
  let db1 := create_tables db
  match upsert_product_performance orders today db1 with
  | (t1, db2, some e) => (pre ++ t1, db2, some e)
  | (t1, db2, none) =>
    match upsert_daily_trends orders db2 with
    | (t2, db3, some e) => (pre ++ t1 ++ t2, db3, some e)
    | (t2, db3, none) => (pre ++ t1 ++ t2 ++ [Event.logDone], db3, none)

/-- The database state after one full run (errors keep the state the
completed statements committed). -/
def runState (orders : List Order) (today : ℤ) (db : DB) : DB :=
  (extract_transform_load orders today db).2.1

/-- The database state after a sequence of runs, each over its own source
snapshot and execution date. -/
def runSeq (runs : List (List Order × ℤ)) (db : DB) : DB :=
  runs.foldl (fun s r => runState r.1 r.2 s) db

/-! ### Lemmas about the aggregation queries -/

theorem ppQuery_keys (orders : List Order) :
    (productPerformanceQuery orders).map PPAgg.product = productGroups orders := by
  simp only [productPerformanceQuery, List.map_map]
  exact List.map_id _

theorem ppQuery_keys_nodup (orders : List Order) :
    ((productPerformanceQuery orders).map PPAgg.product).Nodup := by
  rw [ppQuery_keys]
  exact List.nodup_dedup _

theorem mem_ppQuery_keys (orders : List Order) (p : String) :
    p ∈ (productPerformanceQuery orders).map PPAgg.product ↔
      p ∈ orders.map Order.product := by
  rw [ppQuery_keys]
  exact List.mem_dedup

theorem ppQuery_content (orders : List Order) (row : PPAgg)
    (h : row ∈ productPerformanceQuery orders) :
    row.order_count = (orders.filter (fun o => o.product = row.product)).length ∧
    row.total_sales =
      ((orders.filter (fun o => o.product = row.product)).map Order.amount).sum ∧
    row.avg_sales =
      ((orders.filter (fun o => o.product = row.product)).map Order.amount).sum /
        ((orders.filter (fun o => o.product = row.product)).length : ℚ) := by
  simp only [productPerformanceQuery, List.mem_map] at h
  obtain ⟨p, _, rfl⟩ := h
  exact ⟨rfl, rfl, rfl⟩

theorem ppQuery_nil_iff (orders : List Order) :
    productPerformanceQuery orders = [] ↔ orders = [] := by
  simp [productPerformanceQuery, productGroups]

theorem dtQuery_keys (orders : List Order) :
    (dailyTrendsQuery orders).map DTRow.order_date =
      (dateGroups orders).insertionSort (· ≤ ·) := by
  simp only [dailyTrendsQuery, List.map_map]
  exact List.map_id _

theorem dtQuery_keys_sorted (orders : List Order) :
    ((dailyTrendsQuery orders).map DTRow.order_date).Sorted (· ≤ ·) := by
  rw [dtQuery_keys]
  exact List.sorted_insertionSort _ _

theorem dtQuery_keys_nodup (orders : List Order) :
    ((dailyTrendsQuery orders).map DTRow.order_date).Nodup := by
  rw [dtQuery_keys]
  exact ((List.perm_insertionSort _ _).nodup_iff).mpr (List.nodup_dedup _)

theorem mem_dtQuery_keys (orders : List Order) (d : ℤ) :
    d ∈ (dailyTrendsQuery orders).map DTRow.order_date ↔
      d ∈ orders.map (fun o => dateOf o.created_at) := by
  rw [dtQuery_keys, (List.perm_insertionSort _ _).mem_iff]
  exact List.mem_dedup

theorem dtQuery_content (orders : List Order) (row : DTRow)
    (h : row ∈ dailyTrendsQuery orders) :
    row.daily_orders =
      (orders.filter (fun o => dateOf o.created_at = row.order_date)).length ∧
    row.daily_sales =
      ((orders.filter (fun o => dateOf o.created_at = row.order_date)).map
        Order.amount).sum := by
  simp only [dailyTrendsQuery, List.mem_map] at h
  obtain ⟨d, _, rfl⟩ := h
  exact ⟨rfl, rfl⟩

/-! ### The product-performance write fails on arity for every nonempty batch -/

theorem ppData_nil : ppData [] = [] := rfl

theorem dtData_nil : dtData [] = [] := rfl

theorem ppData_isEmpty_false (g : PPAgg) (l : List PPAgg) :
    (ppData (g :: l)).isEmpty = false := rfl

theorem runPPInsert_arity (today : ℤ) (tbl : List PPRow) (touched : List String)
    (g : PPAgg) (l : List PPAgg) :
    runPPInsert today tbl touched (ppData (g :: l)) =
      .error (.insertArityMismatch 5 4) := rfl

theorem upsert_pp_state (orders : List Order) (today : ℤ) (db : DB) :
    (upsert_product_performance orders today db).2.1 = db := by
  unfold upsert_product_performance
  cases hq : productPerformanceQuery orders with
  | nil => simp [ppData_nil]
  | cons g l => simp [ppData_isEmpty_false, runPPInsert_arity]

theorem upsert_pp_err (orders : List Order) (today : ℤ) (db : DB)
    (h : orders ≠ []) :
    (upsert_product_performance orders today db).2.2 =
      some (.insertArityMismatch 5 4) := by
  obtain ⟨g, l, hq⟩ : ∃ g l, productPerformanceQuery orders = g :: l := by
    cases hq : productPerformanceQuery orders with
    | nil => exact absurd ((ppQuery_nil_iff orders).mp hq) h
    | cons g l => exact ⟨g, l, rfl⟩
  unfold upsert_product_performance
  simp [hq, ppData_isEmpty_false, runPPInsert_arity]

/-! ### The daily-trends upsert statement -/

theorem dtData_isEmpty_false (g : DTRow) (l : List DTRow) :
    (dtData (g :: l)).isEmpty = false := rfl

theorem dtApplyRow_keys_mem (tbl : List DTRow) (r : DTRow)
    (h : r.order_date ∈ dtKeys tbl) :
    dtKeys (dtApplyRow tbl r) = dtKeys tbl := by
  unfold dtApplyRow
  rw [if_pos h]
  unfold dtKeys
  rw [List.map_map]
  apply List.map_congr_left
  intro x _
  by_cases hx : x.order_date = r.order_date <;> simp [hx, Function.comp]

theorem dtApplyRow_keys_not_mem (tbl : List DTRow) (r : DTRow)
    (h : r.order_date ∉ dtKeys tbl) :
    dtKeys (dtApplyRow tbl r) = dtKeys tbl ++ [r.order_date] := by
  unfold dtApplyRow
  rw [if_neg h]
  simp [dtKeys]

theorem dtApplyRow_keys_nodup (tbl : List DTRow) (r : DTRow)
    (h : (dtKeys tbl).Nodup) :
    (dtKeys (dtApplyRow tbl r)).Nodup := by
  by_cases hm : r.order_date ∈ dtKeys tbl
  · rw [dtApplyRow_keys_mem tbl r hm]
    exact h
  · rw [dtApplyRow_keys_not_mem tbl r hm]
    simp [List.nodup_append, h, hm]

theorem dtApplyRow_filter_ne (tbl : List DTRow) (r : DTRow) (k : ℤ)
    (hk : k ≠ r.order_date) :
    (dtApplyRow tbl r).filter (fun x => x.order_date = k) =
      tbl.filter (fun x => x.order_date = k) := by
  by_cases hm : r.order_date ∈ dtKeys tbl
  · unfold dtApplyRow
    rw [if_pos hm]
    clear hm
    induction tbl with
    | nil => rfl
    | cons y ys ih =>
      by_cases hy : y.order_date = r.order_date
      · have hyk : y.order_date ≠ k := by
          rw [hy]
          exact Ne.symm hk
        have hproj :
            ({ y with daily_orders := r.daily_orders,
                      daily_sales := r.daily_sales } : DTRow).order_date =
              y.order_date := rfl
        simp only [List.map_cons, List.filter_cons, if_pos hy]
        simp [hproj, hyk, ih]
      · simp only [List.map_cons, List.filter_cons, if_neg hy]
        by_cases hyk : y.order_date = k <;> simp [hyk, ih]
  · unfold dtApplyRow
    rw [if_neg hm]
    simp [List.filter_append, Ne.symm hk]

theorem foldl_dtApplyRow_keys_nodup (results tbl : List DTRow)
    (h : (dtKeys tbl).Nodup) :
    (dtKeys (results.foldl dtApplyRow tbl)).Nodup := by
  induction results generalizing tbl with
  | nil => exact h
  | cons g l ih => exact ih _ (dtApplyRow_keys_nodup tbl g h)

theorem foldl_dtApplyRow_filter_ne (results tbl : List DTRow) (k : ℤ)
    (hk : k ∉ results.map DTRow.order_date) :
    (results.foldl dtApplyRow tbl).filter (fun x => x.order_date = k) =
      tbl.filter (fun x => x.order_date = k) := by
  induction results generalizing tbl with
  | nil => rfl
  | cons g l ih =>
    simp only [List.map_cons, List.mem_cons] at hk
    push_neg at hk
    rw [List.foldl_cons, ih _ hk.2, dtApplyRow_filter_ne tbl g k hk.1]

theorem runDTInsert_dtData (results : List DTRow) (tbl : List DTRow)
    (touched : List ℤ)
    (hdisj : ∀ r ∈ results, r.order_date ∉ touched)
    (hnodup : (results.map DTRow.order_date).Nodup) :
    runDTInsert tbl touched (dtData results) =
      .ok (results.foldl dtApplyRow tbl) := by
  induction results generalizing tbl touched with
  | nil => rfl
  | cons g l ih =>
    have hg : g.order_date ∉ touched := hdisj g (List.mem_cons_self _ _)
    simp only [List.map_cons, List.nodup_cons] at hnodup
    have hstep : runDTInsert tbl touched (dtData (g :: l)) =
        runDTInsert (dtApplyRow tbl g) (g.order_date :: touched) (dtData l) := by
      simp [dtData, runDTInsert, dtInsertColumns, decodeDTRow, hg]
    rw [hstep, List.foldl_cons]
    apply ih
    · intro r hr
      simp only [List.mem_cons]
      push_neg
      refine ⟨?_, hdisj r (List.mem_cons_of_mem _ hr)⟩
      intro he
      exact hnodup.1 (he ▸ List.mem_map_of_mem DTRow.order_date hr)
    · exact hnodup.2

theorem ppApplyRow_keys_mem (today : ℤ) (tbl : List PPRow) (r : PPRow)
    (h : r.product ∈ ppKeys tbl) :
    ppKeys (ppApplyRow today tbl r) = ppKeys tbl := by
  unfold ppApplyRow
  rw [if_pos h]
  unfold ppKeys
  rw [List.map_map]
  apply List.map_congr_left
  intro x _
  by_cases hx : x.product = r.product <;> simp [hx, Function.comp]

/-! ### Characterizations of the three tasks and one full run -/

theorem upsert_pp_trace (orders : List Order) (today : ℤ) (db : DB) :
    (upsert_product_performance orders today db).1 =
      Event.readSource :: ppLogEvents (productPerformanceQuery orders) ++
        (if productPerformanceQuery orders = [] then []
         else [Event.writeProductPerformance]) := by
  unfold upsert_product_performance
  cases hq : productPerformanceQuery orders with
  | nil => simp [ppData_nil]
  | cons g l => simp [ppData_isEmpty_false, runPPInsert_arity]

theorem upsert_dt_err (orders : List Order) (db : DB) :
    (upsert_daily_trends orders db).2.2 = none := by
  unfold upsert_daily_trends
  cases hq : dailyTrendsQuery orders with
  | nil => simp [dtData_nil]
  | cons g l =>
    have hrun := runDTInsert_dtData (g :: l) db.daily_trends []
      (by simp) (hq ▸ dtQuery_keys_nodup orders)
    simp [dtData_isEmpty_false, hrun]

theorem upsert_dt_state (orders : List Order) (db : DB) :
    (upsert_daily_trends orders db).2.1 =
      { db with
        daily_trends :=
          (dailyTrendsQuery orders).foldl dtApplyRow db.daily_trends } := by
  unfold upsert_daily_trends
  cases hq : dailyTrendsQuery orders with
  | nil => simp [dtData_nil]
  | cons g l =>
    have hrun := runDTInsert_dtData (g :: l) db.daily_trends []
      (by simp) (hq ▸ dtQuery_keys_nodup orders)
    simp [dtData_isEmpty_false, hrun]

theorem upsert_dt_trace (orders : List Order) (db : DB) :
    (upsert_daily_trends orders db).1 =
      Event.readSource :: dtLogEvents (dailyTrendsQuery orders) ++
        (if dailyTrendsQuery orders = [] then []
         else [Event.writeDailyTrends]) := by
  unfold upsert_daily_trends
  cases hq : dailyTrendsQuery orders with
  | nil => simp [dtData_nil]
  | cons g l =>
    have hrun := runDTInsert_dtData (g :: l) db.daily_trends []
      (by simp) (hq ▸ dtQuery_keys_nodup orders)
    simp [dtData_isEmpty_false, hrun]

theorem etl_nil (today : ℤ) (db : DB) :
    extract_transform_load [] today db =
      ([Event.logStart, Event.ddlProductPerformance, Event.ddlDailyTrends,
        Event.readSource, Event.logProductHeader,
        Event.readSource, Event.logDailyHeader, Event.logDone],
       create_tables db, none) := rfl

theorem etl_cons (o : Order) (os : List Order) (today : ℤ) (db : DB) :
    extract_transform_load (o :: os) today db =
      (Event.logStart :: Event.ddlProductPerformance :: Event.ddlDailyTrends ::
        (Event.readSource :: ppLogEvents (productPerformanceQuery (o :: os)) ++
          [Event.writeProductPerformance]),
       create_tables db, some (.insertArityMismatch 5 4)) := by
  unfold extract_transform_load
  rcases hr : upsert_product_performance (o :: os) today (create_tables db)
    with ⟨t1, db2, e2⟩
  have hs := upsert_pp_state (o :: os) today (create_tables db)
  have he := upsert_pp_err (o :: os) today (create_tables db)
    (List.cons_ne_nil o os)
  have ht := upsert_pp_trace (o :: os) today (create_tables db)
  rw [hr] at hs he ht
  simp only at hs he ht
  have hq : ¬ productPerformanceQuery (o :: os) = [] := by
    rw [ppQuery_nil_iff]
    exact List.cons_ne_nil o os
  rw [if_neg hq] at ht
  rw [he] at hr
  simp [hr, hs, ht]

theorem create_tables_keys_nodup (db : DB)
    (hpp : (ppKeys db.product_performance).Nodup)
    (hdt : (dtKeys db.daily_trends).Nodup) :
    (ppKeys (create_tables db).product_performance).Nodup ∧
    (dtKeys (create_tables db).daily_trends).Nodup := by
  constructor
  · simp only [create_tables]
    split
    · exact hpp
    · simp [ppKeys]
  · simp only [create_tables]
    split
    · exact hdt
    · simp [dtKeys]

theorem runState_eq_create (orders : List Order) (today : ℤ) (db : DB) :
    runState orders today db = create_tables db := by
  cases orders with
  | nil => rfl
  | cons o os =>
    unfold runState extract_transform_load
    rcases hr : upsert_product_performance (o :: os) today (create_tables db)
      with ⟨t1, db2, e2⟩
    have hs := upsert_pp_state (o :: os) today (create_tables db)
    have he := upsert_pp_err (o :: os) today (create_tables db)
      (List.cons_ne_nil o os)
    rw [hr] at hs he
    simp only at hs he
    rw [he] at hr
    simp [hr, hs]

/-! ### Claim theorems -/

/-- C8: EnsureSchema (`create_tables`) is idempotent — running it twice in a
row produces no error and leaves the schema and table state identical to
running it once, because both destination tables are created with
`CREATE TABLE IF NOT EXISTS`. -/
theorem c8_create_tables_idempotent (db : DB) :
    create_tables (create_tables db) = create_tables db := by
  simp [create_tables]

/-- C1 (code bug): with one product group present, the batched
product-performance upsert does not insert
`(product, order_count, total_sales, avg_sales, today's date)` — the
`INSERT` names five target columns while each parameter row built from
`data` carries only four values, so the statement fails with an arity
error, the step raises, and the destination table is left unchanged. -/
theorem c1_product_upsert_arity_failure :
    (upsert_product_performance [⟨"A", 10, ⟨0, 0⟩⟩] 7
        ⟨true, true, [], []⟩).2.2 = some (.insertArityMismatch 5 4) ∧
    (upsert_product_performance [⟨"A", 10, ⟨0, 0⟩⟩] 7
        ⟨true, true, [], []⟩).2.1.product_performance = [] ∧
    ppInsertColumns.length = 5 ∧
    (ppData (productPerformanceQuery [⟨"A", 10, ⟨0, 0⟩⟩])).map List.length =
      [4] :=
  ⟨rfl, rfl, rfl, rfl⟩

/-- C2 (code bug): the aggregation query itself groups by product with
count/sum/mean exactly as claimed — on `[(A,10),(A,20),(B,5)]` it returns
`A: count 2, total 30, avg 15` and `B: count 1, total 5, avg 5` — but the
step's batched write then fails on the column/value arity mismatch, so
ProductPerformance ends up with no rows at all instead of the two claimed
rows. -/
theorem c2_product_aggregation_write_failure :
    productPerformanceQuery
        [⟨"A", 10, ⟨0, 0⟩⟩, ⟨"A", 20, ⟨0, 1⟩⟩, ⟨"B", 5, ⟨1, 0⟩⟩] =
      [⟨"A", 2, 30, 15⟩, ⟨"B", 1, 5, 5⟩] ∧
    (upsert_product_performance
        [⟨"A", 10, ⟨0, 0⟩⟩, ⟨"A", 20, ⟨0, 1⟩⟩, ⟨"B", 5, ⟨1, 0⟩⟩] 7
        ⟨true, true, [], []⟩).2.2 = some (.insertArityMismatch 5 4) ∧
    (upsert_product_performance
        [⟨"A", 10, ⟨0, 0⟩⟩, ⟨"A", 20, ⟨0, 1⟩⟩, ⟨"B", 5, ⟨1, 0⟩⟩] 7
        ⟨true, true, [], []⟩).2.1.product_performance = [] := by
  refine ⟨?_, rfl, rfl⟩
  have hd : (["A", "A", "B"] : List String).dedup = ["A", "B"] := by decide
  have h1 : ("B" : String) = "A" ↔ False := by
    simp only [iff_false]
    decide
  have h2 : ("A" : String) = "B" ↔ False := by
    simp only [iff_false]
    decide
  norm_num [productPerformanceQuery, productGroups, hd, h1, h2,
    List.filter_cons]

/-- C7 (code bug): running the pipeline twice with unchanged source data
does leave the destination tables identical, but not for the claimed
reason — each run's product-performance write fails on the column/value
arity mismatch, so `report_date` does not advance to the later run's
execution date: a pre-existing row keeps its old `report_date` (here `0`,
not the second run's date `2`). -/
theorem c7_rerun_keeps_stale_report_date :
    runState [⟨"A", 10, ⟨0, 0⟩⟩] 2
        (runState [⟨"A", 10, ⟨0, 0⟩⟩] 1
          ⟨true, true, [⟨"A", 1, 10, 10, 0⟩], []⟩) =
      runState [⟨"A", 10, ⟨0, 0⟩⟩] 1
        ⟨true, true, [⟨"A", 1, 10, 10, 0⟩], []⟩ ∧
    (runState [⟨"A", 10, ⟨0, 0⟩⟩] 2
        (runState [⟨"A", 10, ⟨0, 0⟩⟩] 1
          ⟨true, true, [⟨"A", 1, 10, 10, 0⟩], []⟩)).product_performance =
      [⟨"A", 1, 10, 10, 0⟩] ∧
    (extract_transform_load [⟨"A", 10, ⟨0, 0⟩⟩] 2
        (runState [⟨"A", 10, ⟨0, 0⟩⟩] 1
          ⟨true, true, [⟨"A", 1, 10, 10, 0⟩], []⟩)).2.2 ≠ none := by
  have h1 : runState [⟨"A", 10, ⟨0, 0⟩⟩] 1
      ⟨true, true, [⟨"A", 1, 10, 10, 0⟩], []⟩ =
      ⟨true, true, [⟨"A", 1, 10, 10, 0⟩], []⟩ := by
    rw [runState_eq_create]
    rfl
  refine ⟨?_, ?_, ?_⟩
  · rw [h1, runState_eq_create]
    rfl
  · rw [h1, runState_eq_create]
    rfl
  · rw [h1, etl_cons]
    simp

/-- C3: the daily-trends step truncates each `created_at` to its calendar
date, groups all order records by that date with no date-range filter
(a date appears among the groups iff some order row has it), computes per
group the row count and the amount sum, and produces the groups — hence
the log lines and the batch rows — in ascending date order; on the spec's
example source (2 orders totalling 15 on 2025-01-01, 1 order of 7 on
2025-01-02) the query returns exactly those two rows, the destination
table receives exactly them, and the log lines appear in date order. -/
theorem c3_daily_trends_correct (orders : List Order) :
    ((dailyTrendsQuery orders).map DTRow.order_date).Sorted (· ≤ ·) ∧
    (∀ row ∈ dailyTrendsQuery orders,
      row.daily_orders =
        (orders.filter (fun o => dateOf o.created_at = row.order_date)).length ∧
      row.daily_sales =
        ((orders.filter (fun o => dateOf o.created_at = row.order_date)).map
          Order.amount).sum) ∧
    (∀ d, d ∈ (dailyTrendsQuery orders).map DTRow.order_date ↔
      d ∈ orders.map (fun o => dateOf o.created_at)) ∧
    dailyTrendsQuery
        [⟨"A", 10, ⟨20250101, 0⟩⟩, ⟨"B", 5, ⟨20250101, 5⟩⟩,
         ⟨"C", 7, ⟨20250102, 0⟩⟩] =
      [⟨20250101, 2, 15⟩, ⟨20250102, 1, 7⟩] ∧
    (upsert_daily_trends
        [⟨"A", 10, ⟨20250101, 0⟩⟩, ⟨"B", 5, ⟨20250101, 5⟩⟩,
         ⟨"C", 7, ⟨20250102, 0⟩⟩]
        ⟨true, true, [], []⟩).2.1.daily_trends =
      [⟨20250101, 2, 15⟩, ⟨20250102, 1, 7⟩] ∧
    (upsert_daily_trends
        [⟨"A", 10, ⟨20250101, 0⟩⟩, ⟨"B", 5, ⟨20250101, 5⟩⟩,
         ⟨"C", 7, ⟨20250102, 0⟩⟩]
        ⟨true, true, [], []⟩).1 =
      [Event.readSource, Event.logDailyHeader,
       Event.logDaily 20250101 2 15, Event.logDaily 20250102 1 7,
       Event.writeDailyTrends] := by
  have hquery : dailyTrendsQuery
      [⟨"A", 10, ⟨20250101, 0⟩⟩, ⟨"B", 5, ⟨20250101, 5⟩⟩,
       ⟨"C", 7, ⟨20250102, 0⟩⟩] =
      [⟨20250101, 2, 15⟩, ⟨20250102, 1, 7⟩] := by
    have hg : dateGroups
        [⟨"A", 10, ⟨20250101, 0⟩⟩, ⟨"B", 5, ⟨20250101, 5⟩⟩,
         ⟨"C", 7, ⟨20250102, 0⟩⟩] = [20250101, 20250102] := by decide
    have hs : ([20250101, 20250102] : List ℤ).insertionSort (· ≤ ·) =
        [20250101, 20250102] := by decide
    norm_num [dailyTrendsQuery, hg, hs, dateOf, List.filter_cons]
  refine ⟨dtQuery_keys_sorted orders, dtQuery_content orders,
    mem_dtQuery_keys orders, hquery, ?_, ?_⟩
  · rw [upsert_dt_state]
    simp only [hquery]
    norm_num [dtApplyRow, dtKeys]
  · rw [upsert_dt_trace, hquery]
    simp [dtLogEvents]

/-- C4: rows of either destination table whose key is not among the run's
aggregated keys are left completely unchanged by the corresponding upsert
step (no pruning and no modification of disappeared keys), and with an
empty source table both upsert steps perform zero writes, raise no error,
and leave every pre-existing destination row untouched. -/
theorem c4_untouched_keys_and_empty_source (orders : List Order) (today : ℤ)
    (db : DB) (p : String) (d : ℤ)
    (hp : p ∉ (productPerformanceQuery orders).map PPAgg.product)
    (hd : d ∉ (dailyTrendsQuery orders).map DTRow.order_date)
    (hpp : db.ppExists = true) (hdt : db.dtExists = true) :
    ((upsert_product_performance orders today db).2.1.product_performance.filter
        (fun x => x.product = p) =
      db.product_performance.filter (fun x => x.product = p)) ∧
    ((upsert_daily_trends orders db).2.1.daily_trends.filter
        (fun x => x.order_date = d) =
      db.daily_trends.filter (fun x => x.order_date = d)) ∧
    runState [] today db = db ∧
    (extract_transform_load [] today db).2.2 = none ∧
    Event.writeProductPerformance ∉ (extract_transform_load [] today db).1 ∧
    Event.writeDailyTrends ∉ (extract_transform_load [] today db).1 := by
  refine ⟨?_, ?_, ?_, ?_, ?_, ?_⟩
  · rw [upsert_pp_state]
  · rw [upsert_dt_state]
    exact foldl_dtApplyRow_filter_ne _ _ d hd
  · rw [runState_eq_create]
    cases db with
    | mk b1 b2 l1 l2 =>
      simp only at hpp hdt
      simp [create_tables, hpp, hdt]
  · rfl
  · rw [etl_nil]
    simp
  · rw [etl_nil]
    simp

/-- C4 witness: the frame property applied to a concrete one-order source,
a pre-existing row for a product and a date absent from that source, and
an existing schema. -/
theorem c4_untouched_keys_witness :
    runState [] 0 ⟨true, true, [⟨"B", 1, 5, 5, 0⟩], [⟨7, 1, 5⟩]⟩ =
      ⟨true, true, [⟨"B", 1, 5, 5, 0⟩], [⟨7, 1, 5⟩]⟩ :=
  (c4_untouched_keys_and_empty_source [⟨"A", 10, ⟨0, 0⟩⟩] 0
    ⟨true, true, [⟨"B", 1, 5, 5, 0⟩], [⟨7, 1, 5⟩]⟩ "B" 7
    (by decide) (by decide) rfl rfl).2.2.1

/-- C5: one run logs the start marker first, then completes both schema
DDL statements before any source read or destination write is attempted;
the completion marker is logged last and only on success; an error aborts
all remaining steps (no daily-trends activity and no completion marker
after a product-performance failure); and the product-performance stage
precedes the daily-trends stage — the trace splits into a prefix with no
daily-trends events and a suffix with no product-performance events. -/
theorem c5_run_ordering (orders : List Order) (today : ℤ) (db : DB) :
    (∃ rest, (extract_transform_load orders today db).1 =
        Event.logStart :: Event.ddlProductPerformance ::
          Event.ddlDailyTrends :: rest ∧
        Event.logStart ∉ rest ∧ Event.ddlProductPerformance ∉ rest ∧
        Event.ddlDailyTrends ∉ rest) ∧
    ((extract_transform_load orders today db).2.2 = none →
      ∃ t, (extract_transform_load orders today db).1 =
        t ++ [Event.logDone]) ∧
    ((extract_transform_load orders today db).2.2 ≠ none →
      Event.writeDailyTrends ∉ (extract_transform_load orders today db).1 ∧
      Event.logDone ∉ (extract_transform_load orders today db).1) ∧
    (∃ t1 t2, (extract_transform_load orders today db).1 = t1 ++ t2 ∧
      Event.writeDailyTrends ∉ t1 ∧ Event.logDailyHeader ∉ t1 ∧
      Event.writeProductPerformance ∉ t2 ∧ Event.logProductHeader ∉ t2) := by
  cases orders with
  | nil =>
    rw [etl_nil]
    refine ⟨⟨[Event.readSource, Event.logProductHeader, Event.readSource,
        Event.logDailyHeader, Event.logDone], by simp, by simp, by simp,
        by simp⟩,
      fun _ => ⟨[Event.logStart, Event.ddlProductPerformance,
        Event.ddlDailyTrends, Event.readSource, Event.logProductHeader,
        Event.readSource, Event.logDailyHeader], by simp⟩,
      ?_,
      ⟨[Event.logStart, Event.ddlProductPerformance, Event.ddlDailyTrends,
        Event.readSource, Event.logProductHeader],
       [Event.readSource, Event.logDailyHeader, Event.logDone],
       by simp, by simp, by simp, by simp, by simp⟩⟩
    intro h
    simp at h
  | cons o os =>
    rw [etl_cons]
    refine ⟨⟨Event.readSource :: ppLogEvents (productPerformanceQuery (o :: os)) ++
        [Event.writeProductPerformance],
        by simp, by simp [ppLogEvents], by simp [ppLogEvents],
        by simp [ppLogEvents]⟩,
      ?_, fun _ => ⟨by simp [ppLogEvents], by simp [ppLogEvents]⟩,
      ⟨Event.logStart :: Event.ddlProductPerformance :: Event.ddlDailyTrends ::
        (Event.readSource :: ppLogEvents (productPerformanceQuery (o :: os)) ++
          [Event.writeProductPerformance]), [],
       by simp, by simp [ppLogEvents], by simp [ppLogEvents], by simp,
       by simp⟩⟩
    intro h
    simp at h

/-- C6: starting from destination tables with key-distinct rows, any
sequence of runs over any source snapshots and dates leaves
`product_performance` with at most one row per `product` and `daily_trends`
with at most one row per `order_date`; moreover each modelled upsert
statement affects at most one row per key — it appends the row when the key
is absent and overwrites fields in place (key column unchanged) when the
key is present, for both destination tables. -/
theorem c6_at_most_one_row_per_key (runs : List (List Order × ℤ)) (db : DB)
    (hpp : (ppKeys db.product_performance).Nodup)
    (hdt : (dtKeys db.daily_trends).Nodup) :
    (ppKeys (runSeq runs db).product_performance).Nodup ∧
    (dtKeys (runSeq runs db).daily_trends).Nodup ∧
    (∀ (tbl : List DTRow) (r : DTRow), r.order_date ∉ dtKeys tbl →
      dtApplyRow tbl r = tbl ++ [r]) ∧
    (∀ (tbl : List DTRow) (r : DTRow), r.order_date ∈ dtKeys tbl →
      dtKeys (dtApplyRow tbl r) = dtKeys tbl) ∧
    (∀ (today : ℤ) (tbl : List PPRow) (r : PPRow), r.product ∉ ppKeys tbl →
      ppApplyRow today tbl r = tbl ++ [r]) ∧
    (∀ (today : ℤ) (tbl : List PPRow) (r : PPRow), r.product ∈ ppKeys tbl →
      ppKeys (ppApplyRow today tbl r) = ppKeys tbl) := by
  have main : ∀ (rs : List (List Order × ℤ)) (d : DB),
      (ppKeys d.product_performance).Nodup →
      (dtKeys d.daily_trends).Nodup →
      (ppKeys (runSeq rs d).product_performance).Nodup ∧
      (dtKeys (runSeq rs d).daily_trends).Nodup := by
    intro rs
    induction rs with
    | nil => exact fun d h1 h2 => ⟨h1, h2⟩
    | cons r rest ih =>
      intro d h1 h2
      have hc := create_tables_keys_nodup d h1 h2
      have hstep : runSeq (r :: rest) d = runSeq rest (runState r.1 r.2 d) :=
        rfl
      rw [hstep, runState_eq_create]
      exact ih _ hc.1 hc.2
  refine ⟨(main runs db hpp hdt).1, (main runs db hpp hdt).2, ?_, ?_, ?_, ?_⟩
  · intro tbl r h
    unfold dtApplyRow
    rw [if_neg h]
  · exact fun tbl r h => dtApplyRow_keys_mem tbl r h
  · intro today tbl r h
    unfold ppApplyRow
    rw [if_neg h]
  · exact fun today tbl r h => ppApplyRow_keys_mem today tbl r h

/-- C6 witness: the invariant applied to two concrete runs from an empty
schema-less state. -/
theorem c6_at_most_one_row_per_key_witness :
    (ppKeys (runSeq [([⟨"A", 10, ⟨0, 0⟩⟩], 1), ([], 2)]
        ⟨false, false, [], []⟩).product_performance).Nodup :=
  (c6_at_most_one_row_per_key [([⟨"A", 10, ⟨0, 0⟩⟩], 1), ([], 2)]
    ⟨false, false, [], []⟩ (by simp [ppKeys]) (by simp [dtKeys])).1

/-- C9: each data-access step commits its own connection-scoped transaction
and the run shares no transaction across steps — after a run in which the
product-performance write fails, the schema step's effect is still
committed (both destination tables exist in the final state), the failing
write left its own table exactly as it was after the schema step, the
never-reached daily-trends table is unchanged, and the run as a whole
reports the error; the final product-performance table always equals the
product-performance step's own committed output. -/
theorem c9_step_transactions (orders : List Order) (today : ℤ) (db : DB)
    (he : (upsert_product_performance orders today
      (create_tables db)).2.2 ≠ none) :
    ((extract_transform_load orders today db).2.1.ppExists = true ∧
     (extract_transform_load orders today db).2.1.dtExists = true) ∧
    (extract_transform_load orders today db).2.1.product_performance =
      (upsert_product_performance orders today
        (create_tables db)).2.1.product_performance ∧
    (extract_transform_load orders today db).2.1.product_performance =
      (create_tables db).product_performance ∧
    (extract_transform_load orders today db).2.1.daily_trends =
      (create_tables db).daily_trends ∧
    (extract_transform_load orders today db).2.2 ≠ none := by
  cases orders with
  | nil => exact absurd rfl he
  | cons o os =>
    rw [etl_cons, upsert_pp_state]
    refine ⟨⟨rfl, rfl⟩, rfl, rfl, rfl, by simp⟩

/-- C9 witness: the transaction-boundary properties at a concrete one-order
source whose product-performance write fails. -/
theorem c9_step_transactions_witness :
    (extract_transform_load [⟨"A", 10, ⟨0, 0⟩⟩] 3
      ⟨false, false, [], []⟩).2.2 ≠ none :=
  (c9_step_transactions [⟨"A", 10, ⟨0, 0⟩⟩] 3 ⟨false, false, [], []⟩
    (by decide)).2.2.2.2

/-- C10 counterexample: the product-performance batched write is not
well-defined for every source table — on a one-order source the statement
fails (with the column/value arity error, not from affecting a row
twice). -/
theorem c10_pp_write_not_well_defined :
    runPPInsert 0 [] []
        (ppData (productPerformanceQuery [⟨"A", 10, ⟨0, 0⟩⟩])) =
      .error (.insertArityMismatch 5 4) := rfl

/-- C10 (amended): both aggregation queries produce key-distinct batches
(`GROUP BY` guarantees it), so neither batched `ON CONFLICT` statement ever
attempts to affect the same destination row twice in one command: the
daily-trends batched write succeeds for every source table, and the
product-performance write never raises the duplicate-row error — though it
still fails on its column/value arity mismatch for nonempty sources. -/
theorem c10_batches_key_distinct (orders : List Order) :
    ((productPerformanceQuery orders).map PPAgg.product).Nodup ∧
    ((dailyTrendsQuery orders).map DTRow.order_date).Nodup ∧
    (∀ tbl : List DTRow, ∃ out,
      runDTInsert tbl [] (dtData (dailyTrendsQuery orders)) = .ok out) ∧
    (∀ (today : ℤ) (tbl : List PPRow) (touched : List String),
      runPPInsert today tbl touched
        (ppData (productPerformanceQuery orders)) ≠
          .error .onConflictTwice) := by
  refine ⟨ppQuery_keys_nodup orders, dtQuery_keys_nodup orders, ?_, ?_⟩
  · intro tbl
    exact ⟨_, runDTInsert_dtData _ tbl [] (by simp) (dtQuery_keys_nodup orders)⟩
  · intro today tbl touched
    cases hq : productPerformanceQuery orders with
    | nil => simp [ppData_nil, runPPInsert]
    | cons g l =>
      rw [runPPInsert_arity]
      simp

end OrderAnalytics
